import Mathlib

/-!
Verification of the fileguard asynchronous scan-job pipeline.

The definitions below are a shallow embedding of the TypeScript source:
the PostgreSQL tables `jobs` and `scan_results` (schema file) become lists
of records in a `Store`; each service function of
`src/services/job.service.ts` becomes a Lean function that takes the store
(and the values PostgreSQL would supply, such as `NOW()` timestamps and
fresh uuids) and returns the new store together with the result or the
thrown error.  A failed SQL statement writes nothing, so every operation
returns a store in both the ok and the error case; `withTransaction`
(from `src/db/client.ts`) restores the initial store when any statement of
the transaction fails.
-/

namespace FileGuard

/-- The `job_status` enum of the schema / `JobStatus` of the sources. -/
inductive JobStatus where
  | pending
  | processing
  | completed
  | failed
  | cancelled
deriving DecidableEq, Repr

/-- The `scan_result` enum of the schema / `ScanResultType` of the sources. -/
inductive ScanResultType where
  | clean
  | infected
  | error
deriving DecidableEq, Repr

/-- A row of the `jobs` table.  Timestamps are modelled as natural numbers
(the value of the SQL `NOW()` at the moment of the write); `BIGINT` sizes as
`Nat`; nullable columns as `Option`. -/
structure Job where
  id : String
  originalFilename : String
  storedFilename : String
  filePath : String
  fileSize : Nat
  mimeType : Option String
  checksum : Option String
  status : JobStatus
  priority : Int
  attempts : Nat
  maxAttempts : Nat
  errorMessage : Option String
  createdAt : Nat
  updatedAt : Nat
  startedAt : Option Nat
  completedAt : Option Nat
deriving DecidableEq, Repr

/-- A row of the `scan_results` table.  Note the schema places no UNIQUE
constraint on `job_id`: only `id` is a primary key. -/
structure ScanResultRow where
  id : String
  jobId : String
  result : ScanResultType
  isInfected : Bool
  threatName : Option String
  threatCategory : Option String
  threatDescription : Option String
  scannerVersion : Option String
  definitionVersion : Option String
  scanDurationMs : Nat
  scannedAt : Nat
deriving DecidableEq, Repr

/-- The database state: the two tables, rows in insertion order. -/
structure Store where
  jobs : List Job
  results : List ScanResultRow
deriving DecidableEq, Repr

/-- The empty database. -/
def Store.empty : Store := ⟨[], []⟩

/-- SELECT * FROM jobs WHERE id = jobId (at most one row: id is the key). -/
def lookupJob (st : Store) (jobId : String) : Option Job :=
  st.jobs.find? (fun j => j.id == jobId)

/-- The scan_results rows owned by a job (`getScanResultByJobId` returns the
first of these). -/
def resultsFor (st : Store) (jobId : String) : List ScanResultRow :=
  st.results.filter (fun r => r.jobId == jobId)

/-- The error taxonomy of `src/utils/errors.ts`, carrying the message. -/
inductive AppErr where
  | validationError (msg : String)
  | notFoundError (resource identifier : String)
  | databaseError (msg : String)
  | storageError (msg : String)
  | queueError (msg : String)
  | scannerError (msg : String)
  | scannerUnavailableError
deriving DecidableEq, Repr

/-- The `message` property of the corresponding `AppError` instance. -/
def AppErr.message : AppErr → String
  | .validationError m => m
  | .notFoundError res iden => res ++ " not found: " ++ iden
  | .databaseError m => m
  | .storageError m => m
  | .queueError m => m
  | .scannerError m => m
  | .scannerUnavailableError =>
      "Virus scanner is temporarily unavailable. Please try again later."

/-- Whether an error is the `ValidationError` class. -/
def AppErr.isValidationError : AppErr → Bool
  | .validationError _ => true
  | _ => false

/-- The `CreateJobInput` of the sources.  The four required columns are
modelled as `Option` so that a value missing at run time (the TypeScript
types are not enforced at run time) can be expressed: a missing value is
inserted as NULL and violates the schema's NOT NULL constraint. -/
structure CreateJobInput where
  originalFilename : Option String
  storedFilename : Option String
  filePath : Option String
  fileSize : Option Nat
  mimeType : Option String
  checksum : Option String
  priority : Option Int
deriving DecidableEq, Repr

/-- Shallow embedding of `createJob` (src/services/job.service.ts).  The
function performs no validation: it INSERTs directly, with
`priority ?? 0`, and the schema defaults `status='pending'`, `attempts=0`,
`max_attempts=3`.  A constraint violation (NOT NULL on the four required
columns, or a duplicate primary key) is raised by PostgreSQL and wrapped by
the db client `query` helper as `DatabaseError("Database query failed")`. -/
def createJob (st : Store) (newId : String) (now : Nat) (input : CreateJobInput) :
    Store × Except AppErr Job :=
  match input.originalFilename, input.storedFilename, input.filePath, input.fileSize with
  | some ofn, some sfn, some fp, some fs =>
    if st.jobs.any (fun j => j.id == newId) then
      (st, .error (.databaseError "Database query failed"))
    else
      let job : Job :=
        { id := newId
          originalFilename := ofn
          storedFilename := sfn
          filePath := fp
          fileSize := fs
          mimeType := input.mimeType
          checksum := input.checksum
          status := .pending
          priority := input.priority.getD 0
          attempts := 0
          maxAttempts := 3
          errorMessage := none
          createdAt := now
          updatedAt := now
          startedAt := none
          completedAt := none }
      ({ st with jobs := st.jobs ++ [job] }, .ok job)
  | _, _, _, _ => (st, .error (.databaseError "Database query failed"))

/-- The row produced by the UPDATE of `updateJobStatus` on a matched job:
status is always written; on `processing` the statement adds
`started_at = NOW(), attempts = attempts + 1`; on `completed` or `failed`
it adds `completed_at = NOW()`; `error_message` only when the argument was
passed.  The schema trigger sets `updated_at = NOW()` on every jobs UPDATE. -/
def applyStatusUpdate (now : Nat) (status : JobStatus) (errorMessage : Option String)
    (j : Job) : Job :=
  let j := { j with status := status, updatedAt := now }
  let j := if status = .processing then
             { j with startedAt := some now, attempts := j.attempts + 1 }
           else j
  let j := if status = .completed ∨ status = .failed then
             { j with completedAt := some now }
           else j
  match errorMessage with
  | some m => { j with errorMessage := some m }
  | none => j

/-- Shallow embedding of `updateJobStatus` (src/services/job.service.ts).
Builds `UPDATE jobs SET ... WHERE id = $1 RETURNING *` and throws
`NotFoundError` when no row matched. -/
def updateJobStatus (st : Store) (now : Nat) (jobId : String) (status : JobStatus)
    (errorMessage : Option String) : Store × Except AppErr Job :=
  match st.jobs.find? (fun j => j.id == jobId) with
  | none => (st, .error (.notFoundError "Job" jobId))
  | some j =>
    let j' := applyStatusUpdate now status errorMessage j
    ({ st with jobs := st.jobs.map (fun k => if k.id == jobId then j' else k) },
     .ok j')

/-- The result payload of `saveScanResult`. -/
structure ScanResultData where
  result : ScanResultType
  isInfected : Bool
  threatName : Option String
  threatCategory : Option String
  threatDescription : Option String
  scannerVersion : Option String
  definitionVersion : Option String
  scanDurationMs : Nat
deriving DecidableEq, Repr

/-- Shallow embedding of `saveScanResult` (src/services/job.service.ts): a
plain INSERT into scan_results.  It fails (as `DatabaseError` via the query
wrapper) on a duplicate primary key or when `job_id` violates the foreign
key to jobs; nothing prevents a second row for the same job. -/
def saveScanResult (st : Store) (newId : String) (now : Nat) (jobId : String)
    (d : ScanResultData) : Store × Except AppErr ScanResultRow :=
  if st.results.any (fun r => r.id == newId) then
    (st, .error (.databaseError "Database query failed"))
  else if st.jobs.any (fun j => j.id == jobId) then
    let row : ScanResultRow :=
      { id := newId
        jobId := jobId
        result := d.result
        isInfected := d.isInfected
        threatName := d.threatName
        threatCategory := d.threatCategory
        threatDescription := d.threatDescription
        scannerVersion := d.scannerVersion
        definitionVersion := d.definitionVersion
        scanDurationMs := d.scanDurationMs
        scannedAt := now }
    ({ st with results := st.results ++ [row] }, .ok row)
  else
    (st, .error (.databaseError "Database query failed"))

/-- Runs the statements of a transaction in order; stops at the first
failing statement.  The returned store is the uncommitted state at that
point. -/
def runTx (st : Store) : List (Store → Except AppErr Store) → Store × Option AppErr
  | [] => (st, none)
  | q :: qs =>
    match q st with
    | .ok st' => runTx st' qs
    | .error e => (st, some e)

/-- Shallow embedding of `withTransaction` (src/db/client.ts): BEGIN, run
the statements, COMMIT; on any error ROLLBACK restores the initial state
and the error is rethrown. -/
def withTransaction (st : Store) (qs : List (Store → Except AppErr Store)) :
    Store × Option AppErr :=
  match runTx st qs with
  | (st', none) => (st', none)
  | (_, some e) => (st, some e)

/-- The result payload of `completeJobWithResult` (only these four fields
are inserted; the remaining columns stay NULL). -/
structure CompleteResultData where
  result : ScanResultType
  isInfected : Bool
  threatName : Option String
  scanDurationMs : Nat
deriving DecidableEq, Repr

/-- The scan_results row written by `completeJobWithResult`. -/
def completionRow (newId jobId : String) (now : Nat) (r : CompleteResultData) :
    ScanResultRow :=
  { id := newId
    jobId := jobId
    result := r.result
    isInfected := r.isInfected
    threatName := r.threatName
    threatCategory := none
    threatDescription := none
    scannerVersion := none
    definitionVersion := none
    scanDurationMs := r.scanDurationMs
    scannedAt := now }

/-- First statement of `completeJobWithResult`: the plain INSERT into
scan_results.  Fails on duplicate primary key or foreign-key violation. -/
def insertResultStmt (newId jobId : String) (now : Nat) (r : CompleteResultData) :
    Store → Except AppErr Store := fun st =>
  if st.results.any (fun x => x.id == newId) then
    .error (.databaseError "Database query failed")
  else if st.jobs.any (fun j => j.id == jobId) then
    .ok { st with results := st.results ++ [completionRow newId jobId now r] }
  else
    .error (.databaseError "Database query failed")

/-- Second statement of `completeJobWithResult`:
`UPDATE jobs SET status = 'completed', completed_at = NOW() WHERE id = $1`.
An UPDATE matching zero rows succeeds with rowCount 0 (the code does not
check it).  The schema trigger also sets `updated_at`. -/
def markCompletedStmt (jobId : String) (now : Nat) :
    Store → Except AppErr Store := fun st =>
  .ok { st with
          jobs := st.jobs.map (fun j =>
            if j.id == jobId then
              { j with status := .completed, completedAt := some now, updatedAt := now }
            else j) }

/-- Shallow embedding of `completeJobWithResult`
(src/services/job.service.ts): the INSERT of the scan result and the
UPDATE to `completed` run inside one `withTransaction`. -/
def completeJobWithResult (st : Store) (newId : String) (now : Nat) (jobId : String)
    (r : CompleteResultData) : Store × Option AppErr :=
  withTransaction st [insertResultStmt newId jobId now r, markCompletedStmt jobId now]

/-- The WHERE clause of `getRetryableJobs`
(`status = 'failed' AND attempts < max_attempts`): the store-side criterion
for a failed job being eligible for another delivery. -/
def retryEligible (j : Job) : Bool :=
  j.status == .failed && decide (j.attempts < j.maxAttempts)

/-- The database states reachable through the write operations that the job
service exposes, starting from the empty database.  The `now`, fresh-id and
payload arguments are arbitrary: any caller sequence is admitted. -/
inductive Reachable : Store → Prop where
  | init : Reachable Store.empty
  | create (st : Store) (newId : String) (now : Nat) (input : CreateJobInput) :
      Reachable st → Reachable (createJob st newId now input).1
  | update (st : Store) (now : Nat) (jobId : String) (status : JobStatus)
      (msg : Option String) :
      Reachable st → Reachable (updateJobStatus st now jobId status msg).1
  | save (st : Store) (newId : String) (now : Nat) (jobId : String)
      (d : ScanResultData) :
      Reachable st → Reachable (saveScanResult st newId now jobId d).1
  | complete (st : Store) (newId : String) (now : Nat) (jobId : String)
      (r : CompleteResultData) :
      Reachable st → Reachable (completeJobWithResult st newId now jobId r).1

/-- The `ScanJobPayload` queued for the worker. -/
structure ScanJobPayload where
  jobId : String
  filePath : String
  attempt : Nat
deriving DecidableEq, Repr

/-- A BullMQ queue entry as created by `enqueueScanJob`: the payload plus
the add options; `seq` records insertion order. -/
structure QueueEntry where
  entryId : String
  payload : ScanJobPayload
  priority : Int
  delay : Nat
  seq : Nat
deriving DecidableEq, Repr

/-- Shallow embedding of `enqueueScanJob` (src/services/queue.service.ts):
builds the payload `{jobId, filePath, attempt: 1}` and adds it with
`priority ?? 0`, `delay ?? 0` and the database job id as the queue entry
id.  `addFails` models the BullMQ `add` call throwing, which the catch
block wraps as `QueueError('Failed to add job to queue')`. -/
def enqueueScanJob (q : List QueueEntry) (addFails : Bool) (jobId filePath : String)
    (priority : Option Int) (delay : Option Nat) :
    List QueueEntry × Except AppErr String :=
  if addFails then
    (q, .error (.queueError "Failed to add job to queue"))
  else
    (q ++ [{ entryId := jobId
             payload := { jobId := jobId, filePath := filePath, attempt := 1 }
             priority := priority.getD 0
             delay := delay.getD 0
             seq := q.length }],
     .ok jobId)

/-- Modelled from the spec: the dispatch queue's delivery order.  The order
in which waiting entries are handed to workers is implemented by the
external BullMQ library and is not part of src/; the spec states that
delivery honours "priority (higher first) then insertion order".  Among the
entries of the waiting list (kept in insertion order), the first entry of
numerically highest priority is delivered next. -/
def nextDelivered (q : List QueueEntry) : Option QueueEntry :=
  q.foldl (fun best e =>
    match best with
    | none => some e
    | some b => if e.priority > b.priority then some e else some b) none

/-- The `ClamScanResult` of the sources (the optional `error` field is set
by the clamscan library, never by scanner.service itself). -/
structure ClamScanResult where
  isInfected : Bool
  viruses : List String
  scannedFiles : Nat
  scanDurationMs : Nat
  error : Option String
deriving DecidableEq, Repr

/-- Outcome of the `scannerService.scanFile` call as seen by the worker:
either a result object, or a thrown `ScannerError('Failed to scan file')`,
or a thrown `ScannerUnavailableError` (connection refused). -/
inductive ScanOutcome where
  | ok (res : ClamScanResult)
  | scanThrew
  | unavailable
deriving DecidableEq, Repr

/-- The external world as the worker observes it during one
`processScanJob` run: whether `storageService.fileExists` finds the file,
whether `initScanner` throws `ScannerUnavailableError`, and what the scan
call does. -/
structure WorkerEnv where
  fileOnDisk : Bool
  initFails : Bool
  scan : ScanOutcome
deriving DecidableEq, Repr

/-- The observable outcome of one `processScanJob` run: the database state,
the error rethrown to BullMQ (none on the success path), and whether the
detector (`scannerService.scanFile`) was invoked. -/
structure WorkerOutcome where
  store : Store
  thrown : Option String
  scanInvoked : Bool
deriving DecidableEq, Repr

/-- The catch block of `processScanJob`: records the message via
`updateJobStatus(jobId, FAILED, errorMessage)` and rethrows.  When that
update itself throws (unknown job id), its error propagates instead. -/
def failJob (st : Store) (now : Nat) (jobId msg : String) (scanInvoked : Bool) :
    WorkerOutcome :=
  let u := updateJobStatus st now jobId .failed (some msg)
  match u.2 with
  | .ok _ => ⟨u.1, some msg, scanInvoked⟩
  | .error e => ⟨u.1, some e.message, scanInvoked⟩

/-- The result classification of the worker: `scanResult.error` wins, then
`isInfected`, else clean. -/
def classifyResult (res : ClamScanResult) : ScanResultType :=
  if res.error.isSome then .error
  else if res.isInfected then .infected
  else .clean

/-- Shallow embedding of `processScanJob` (src/workers/scan.worker.ts).
In order: transition the job to `processing`; check the stored file exists
(else throw `File not found: <path>`); init the scanner and scan; classify;
`completeJobWithResult`.  Any thrown error goes through the catch block
(`failJob`).  `resultId` is the uuid for the row the completion inserts and
`now` the timestamp of this delivery. -/
def processScanJob (env : WorkerEnv) (st : Store) (now : Nat) (resultId : String)
    (payload : ScanJobPayload) : WorkerOutcome :=
  let u := updateJobStatus st now payload.jobId .processing none
  match u.2 with
  | .error e => failJob u.1 now payload.jobId e.message false
  | .ok _ =>
    if !env.fileOnDisk then
      failJob u.1 now payload.jobId ("File not found: " ++ payload.filePath) false
    else if env.initFails then
      failJob u.1 now payload.jobId AppErr.scannerUnavailableError.message false
    else
      match env.scan with
      | .unavailable =>
          failJob u.1 now payload.jobId AppErr.scannerUnavailableError.message true
      | .scanThrew =>
          failJob u.1 now payload.jobId "Failed to scan file" true
      | .ok res =>
        let c := completeJobWithResult u.1 resultId now payload.jobId
          { result := classifyResult res
            isInfected := res.isInfected
            threatName := res.viruses.head?
            scanDurationMs := res.scanDurationMs }
        match c.2 with
        | none => ⟨c.1, none, true⟩
        | some e => failJob c.1 now payload.jobId e.message true

/-- The system state seen by the upload endpoint: the database, the set of
stored filenames present in the upload directory, and the dispatch queue. -/
structure SysState where
  store : Store
  files : List String
  queue : List QueueEntry
deriving DecidableEq, Repr

/-- What `storageService.saveFile` returned for the uploaded file. -/
structure StoredFileInfo where
  storedFilename : String
  filePath : String
  fileSize : Nat
  checksum : String
deriving DecidableEq, Repr

/-- Shallow embedding of the POST /scan handler (src/api/routes/scan.ts)
from the point where `saveFile` has stored the upload: the handler clamps
the priority to 0..10, creates the job, then enqueues it; if either the
creation or the enqueue throws, the catch block deletes the stored file
and rethrows — it does not touch the job row.  `enqueueFails` models the
queue add throwing. -/
def submitScan (enqueueFails : Bool) (sys : SysState) (newJobId : String) (now : Nat)
    (originalname mimetype : String) (sf : StoredFileInfo) (priority : Int) :
    SysState × Except AppErr String :=
  let files1 := sys.files ++ [sf.storedFilename]
  let c := createJob sys.store newJobId now
    { originalFilename := some originalname
      storedFilename := some sf.storedFilename
      filePath := some sf.filePath
      fileSize := some sf.fileSize
      mimeType := some mimetype
      checksum := some sf.checksum
      priority := some (min (max priority 0) 10) }
  match c.2 with
  | .error e =>
    ({ store := c.1, files := files1.erase sf.storedFilename, queue := sys.queue },
     .error e)
  | .ok job =>
    let q := enqueueScanJob sys.queue enqueueFails job.id sf.filePath
      (some job.priority) none
    match q.2 with
    | .error e =>
      ({ store := c.1, files := files1.erase sf.storedFilename, queue := q.1 },
       .error e)
    | .ok _ =>
      ({ store := c.1, files := files1, queue := q.1 }, .ok job.id)

/-! Path handling for `getFilePath` (src/services/storage.service.ts).
Filenames and paths are modelled as lists of characters (the contents of
the JavaScript strings); the POSIX separator is `/`.  `splitSlash`,
`joinSegs` and `resolveChars` model `path.resolve` applied to an absolute
path: split on the separator, drop empty and `.` segments, let `..` pop
the previous segment (staying at the root), and rebuild. -/

/-- Splits a character list on `/`, keeping empty segments (the inverse of
joining with a single separator). -/
def splitSlash : List Char → List (List Char)
  | [] => [[]]
  | c :: cs =>
    if c = '/' then [] :: splitSlash cs
    else
      match splitSlash cs with
      | [] => [[c]]
      | s :: ss => (c :: s) :: ss

/-- Joins segments with single `/` separators (no leading or trailing
separator). -/
def joinSegs : List (List Char) → List Char
  | [] => []
  | [s] => s
  | s :: ss => s ++ '/' :: joinSegs ss

/-- One step of path normalization: empty and `.` segments disappear,
`..` removes the previous segment (and is a no-op at the root), anything
else is a real path component. -/
def stepSeg (acc : List (List Char)) (seg : List Char) : List (List Char) :=
  if seg = [] ∨ seg = ['.'] then acc
  else if seg = ['.', '.'] then acc.dropLast
  else acc ++ [seg]

/-- The normalized segments of a path. -/
def resolveSegs (cs : List Char) : List (List Char) :=
  (splitSlash cs).foldl stepSeg []

/-- Model of Node `path.resolve` on an absolute POSIX path: the normalized
absolute path, always starting with `/`, with no empty, `.` or `..`
segments left. -/
def resolveChars (cs : List Char) : List Char :=
  '/' :: joinSegs (resolveSegs cs)

/-- Model of Node `path.posix.basename`: ignore trailing separators, keep
what follows the last separator; an all-separator input gives `/`, the
empty input gives the empty string. -/
def basenameChars (p : List Char) : List Char :=
  let r := p.reverse
  let r1 := r.dropWhile (fun c => c = '/')
  if r1 = [] then (if r = [] then [] else ['/'])
  else (r1.takeWhile (fun c => ¬ c = '/')).reverse

/-- Model of JavaScript `String.prototype.startsWith`. -/
def isPrefixChars : List Char → List Char → Bool
  | [], _ => true
  | _ :: _, [] => false
  | a :: as, b :: bs => a = b && isPrefixChars as bs

/-- Shallow embedding of `getFilePath` (src/services/storage.service.ts).
`cfgUploadDir` is the configured upload directory (`UPLOAD_DIR` is its
`path.resolve`).  The input is reduced to its base name, joined to the
upload directory (`path.join` of two non-empty parts concatenates with one
separator before the final resolve), resolved, and the result must start
with the resolved upload directory followed by `path.sep`, else
`StorageError` is thrown. -/
def getFilePathChars (cfgUploadDir stored : List Char) : Except AppErr (List Char) :=
  let updir := resolveChars cfgUploadDir
  let safeName := basenameChars stored
  let resolvedPath := resolveChars (updir ++ '/' :: safeName)
  let resolvedUploadDir := resolveChars updir
  if isPrefixChars (resolvedUploadDir ++ ['/']) resolvedPath then .ok resolvedPath
  else .error (.storageError (String.mk ("Invalid file path detected: ".toList ++ stored)))

/-- String-level interface of the embedded `getFilePath`. -/
def getFilePath (cfgUploadDir stored : String) : Except AppErr String :=
  match getFilePathChars cfgUploadDir.toList stored.toList with
  | .ok p => .ok (String.mk p)
  | .error e => .error e

/-- A real path component: non-empty, not `.` or `..`, and free of the
separator. -/
def validSeg (s : List Char) : Prop :=
  s ≠ [] ∧ s ≠ ['.'] ∧ s ≠ ['.', '.'] ∧ '/' ∉ s

/-- The path `p` lies strictly inside the directory `dir`: it extends
`dir` by a separator and at least one real path component, with no `.` or
`..` left that could escape. -/
def strictlyInside (dir p : List Char) : Prop :=
  ∃ ss, ss ≠ [] ∧ (∀ s ∈ ss, validSeg s) ∧ p = dir ++ '/' :: joinSegs ss

/-! Concrete instances used by the counterexamples and witnesses below. -/

/-- A fully populated job-creation input. -/
def sampleInput : CreateJobInput :=
  { originalFilename := some "report.pdf"
    storedFilename := some "s-report.pdf"
    filePath := some "/app/uploads/s-report.pdf"
    fileSize := some 10
    mimeType := none
    checksum := none
    priority := none }

/-- The store holding the single freshly created job `j1`. -/
def storeCreated : Store := (createJob Store.empty "j1" 0 sampleInput).1

/-- Four consecutive transitions of `j1` into `processing` (BullMQ
redeliveries of its entry). -/
def storeFourDeliveries : Store :=
  (updateJobStatus (updateJobStatus (updateJobStatus (updateJobStatus
    storeCreated 1 "j1" .processing none).1
    2 "j1" .processing none).1
    3 "j1" .processing none).1
    4 "j1" .processing none).1

/-- A clean scan result. -/
def cleanScan : ClamScanResult :=
  { isInfected := false, viruses := [], scannedFiles := 1, scanDurationMs := 5,
    error := none }

/-- The store after `j1` was completed twice (one completion per duplicate
delivery). -/
def storeDoubleCompleted : Store :=
  (completeJobWithResult
    (completeJobWithResult storeCreated "r1" 1 "j1"
      { result := .clean, isInfected := false, threatName := none,
        scanDurationMs := 5 }).1
    "r2" 2 "j1"
    { result := .clean, isInfected := false, threatName := none,
      scanDurationMs := 5 }).1

/-- A worker environment in which everything succeeds and the scan is
clean. -/
def envClean : WorkerEnv := { fileOnDisk := true, initFails := false, scan := .ok cleanScan }

/-- A worker environment in which the stored file is gone. -/
def envMissingFile : WorkerEnv :=
  { fileOnDisk := false, initFails := false, scan := .ok cleanScan }

/-- The queue payload for `j1`. -/
def payload1 : ScanJobPayload :=
  { jobId := "j1", filePath := "/app/uploads/s-report.pdf", attempt := 1 }

/-- First delivery of the entry for `j1` to the worker. -/
def deliveryOne : WorkerOutcome := processScanJob envClean storeCreated 1 "r1" payload1

/-- Duplicate delivery of the same entry before the first lease expired. -/
def deliveryTwo : WorkerOutcome :=
  processScanJob envClean deliveryOne.store 2 "r2" payload1

/-- The store after `j1` failed on its first attempt (attempts remaining). -/
def storeFailedEarly : Store :=
  (updateJobStatus (updateJobStatus storeCreated 1 "j1" .processing none).1
    2 "j1" .failed (some "scan failed")).1

/-- A creation input whose required `originalFilename` is missing. -/
def inputMissingName : CreateJobInput :=
  { originalFilename := none
    storedFilename := some "s-report.pdf"
    filePath := some "/app/uploads/s-report.pdf"
    fileSize := some 10
    mimeType := none
    checksum := none
    priority := none }

/-- The stored-file record of an upload. -/
def storedFile1 : StoredFileInfo :=
  { storedFilename := "s-report.pdf", filePath := "/app/uploads/s-report.pdf",
    fileSize := 10, checksum := "abc123" }

/-- A submit call during which the queue add fails. -/
def submitEnqueueFailed : SysState × Except AppErr String :=
  submitScan true { store := Store.empty, files := [], queue := [] }
    "j1" 0 "report.pdf" "text/plain" storedFile1 5

/-- A plain pending job used by the witnesses. -/
def jobW : Job :=
  { id := "jw"
    originalFilename := "a.txt"
    storedFilename := "s-a.txt"
    filePath := "/app/uploads/s-a.txt"
    fileSize := 1
    mimeType := none
    checksum := none
    status := .pending
    priority := 0
    attempts := 0
    maxAttempts := 3
    errorMessage := none
    createdAt := 0
    updatedAt := 0
    startedAt := none
    completedAt := none }

/-- A store holding only `jobW`. -/
def storeW : Store := { jobs := [jobW], results := [] }

/-- The queue payload for `jobW`. -/
def payloadW : ScanJobPayload :=
  { jobId := "jw", filePath := "/app/uploads/s-a.txt", attempt := 1 }

/-! Helper lemmas about the store operations. -/

/-- Replacing the matched element of a list keeps it the first match when
the replacement carries the same id. -/
theorem find?_map_replace (l : List Job) (i : String) (j j' : Job)
    (hid : j'.id = j.id)
    (h : l.find? (fun k => k.id == i) = some j) :
    (l.map (fun k => if k.id == i then j' else k)).find? (fun k => k.id == i) =
      some j' := by
  induction l with
  | nil => simp at h
  | cons a l ih =>
    by_cases ha : (a.id == i) = true
    · rw [List.find?_cons_of_pos (p := fun k : Job => k.id == i) l ha] at h
      have hj : j = a := (Option.some.inj h).symm
      subst hj
      have hj' : (j'.id == i) = true := by rw [hid]; exact ha
      simp only [List.map_cons]
      rw [if_pos ha]
      exact List.find?_cons_of_pos (p := fun k : Job => k.id == i) _ hj'
    · have hna : ¬ ((fun k : Job => k.id == i) a = true) := ha
      rw [List.find?_cons_of_neg (p := fun k : Job => k.id == i) l hna] at h
      simp only [List.map_cons]
      rw [if_neg ha]
      rw [List.find?_cons_of_neg (p := fun k : Job => k.id == i) _ hna]
      exact ih h

/-- Updating the matched element of a list in place keeps it the first
match when the update preserves ids. -/
theorem find?_map_modify (l : List Job) (i : String) (f : Job → Job) (j : Job)
    (hid : ∀ k, (f k).id = k.id)
    (h : l.find? (fun k => k.id == i) = some j) :
    (l.map (fun k => if k.id == i then f k else k)).find? (fun k => k.id == i) =
      some (f j) := by
  induction l with
  | nil => simp at h
  | cons a l ih =>
    by_cases ha : (a.id == i) = true
    · rw [List.find?_cons_of_pos (p := fun k : Job => k.id == i) l ha] at h
      have hj : j = a := (Option.some.inj h).symm
      subst hj
      have hj' : ((f j).id == i) = true := by rw [hid j]; exact ha
      simp only [List.map_cons]
      rw [if_pos ha]
      exact List.find?_cons_of_pos (p := fun k : Job => k.id == i) _ hj'
    · have hna : ¬ ((fun k : Job => k.id == i) a = true) := ha
      rw [List.find?_cons_of_neg (p := fun k : Job => k.id == i) l hna] at h
      simp only [List.map_cons]
      rw [if_neg ha]
      rw [List.find?_cons_of_neg (p := fun k : Job => k.id == i) _ hna]
      exact ih h

/-- A successful lookup makes the membership test of the UPDATE / foreign
key succeed. -/
theorem any_of_lookup (st : Store) (i : String) (j : Job)
    (h : lookupJob st i = some j) :
    st.jobs.any (fun k => k.id == i) = true := by
  unfold lookupJob at h
  have hmem := List.mem_of_find?_eq_some h
  have hp := List.find?_some h
  exact List.any_eq_true.mpr ⟨j, hmem, hp⟩

/-- Characterization of `updateJobStatus` on a job that exists. -/
theorem updateJobStatus_ok (st : Store) (now : Nat) (jobId : String)
    (status : JobStatus) (msg : Option String) (j : Job)
    (hj : lookupJob st jobId = some j) :
    updateJobStatus st now jobId status msg =
      ({ st with jobs := st.jobs.map (fun k =>
           if k.id == jobId then applyStatusUpdate now status msg j else k) },
       .ok (applyStatusUpdate now status msg j)) := by
  unfold updateJobStatus
  unfold lookupJob at hj
  rw [hj]

/-- The UPDATE of `updateJobStatus` never touches scan_results. -/
theorem updateJobStatus_results (st : Store) (now : Nat) (jobId : String)
    (status : JobStatus) (msg : Option String) :
    (updateJobStatus st now jobId status msg).1.results = st.results := by
  unfold updateJobStatus
  cases h : st.jobs.find? (fun j => j.id == jobId) <;> simp

/-- The status update never changes the job's id. -/
theorem applyStatusUpdate_id (now : Nat) (status : JobStatus)
    (msg : Option String) (j : Job) :
    (applyStatusUpdate now status msg j).id = j.id := by
  unfold applyStatusUpdate
  cases status <;> cases msg <;> rfl

/-- The status update never changes the job's `maxAttempts`. -/
theorem applyStatusUpdate_maxAttempts (now : Nat) (status : JobStatus)
    (msg : Option String) (j : Job) :
    (applyStatusUpdate now status msg j).maxAttempts = j.maxAttempts := by
  unfold applyStatusUpdate
  cases status <;> cases msg <;> rfl

/-- A transition into `processing` adds exactly one to `attempts`. -/
theorem applyStatusUpdate_processing_attempts (now : Nat) (msg : Option String)
    (j : Job) :
    (applyStatusUpdate now .processing msg j).attempts = j.attempts + 1 := by
  unfold applyStatusUpdate
  cases msg <;> rfl

/-- The row written by a transition into `failed` with a message. -/
theorem applyStatusUpdate_failed (now : Nat) (m : String) (j : Job) :
    applyStatusUpdate now .failed (some m) j =
      { j with status := .failed, updatedAt := now, completedAt := some now,
               errorMessage := some m } := by
  rfl

/-- Looking the job up again after `updateJobStatus` yields the updated
row. -/
theorem lookupJob_updateJobStatus (st : Store) (now : Nat) (jobId : String)
    (status : JobStatus) (msg : Option String) (j : Job)
    (hj : lookupJob st jobId = some j) :
    lookupJob (updateJobStatus st now jobId status msg).1 jobId =
      some (applyStatusUpdate now status msg j) := by
  rw [updateJobStatus_ok st now jobId status msg j hj]
  exact find?_map_replace st.jobs jobId j _ (applyStatusUpdate_id now status msg j) hj

/-- Appending an element satisfying the filter grows the filtered list by
that element. -/
theorem filter_append_single {α} (p : α → Bool) (l : List α) (a : α)
    (h : p a = true) :
    (l ++ [a]).filter p = l.filter p ++ [a] := by
  simp [List.filter_append, h]

/-- The committed effect of a `completeJobWithResult` whose INSERT succeeds
(fresh uuid, existing job). -/
theorem completeJobWithResult_success (st : Store) (rid : String) (now : Nat)
    (jobId : String) (r : CompleteResultData)
    (hfresh : st.results.any (fun x => x.id == rid) = false)
    (hjob : st.jobs.any (fun j => j.id == jobId) = true) :
    completeJobWithResult st rid now jobId r =
      ({ jobs := st.jobs.map (fun j =>
            if j.id == jobId then
              { j with status := .completed, completedAt := some now,
                       updatedAt := now }
            else j),
         results := st.results ++ [completionRow rid jobId now r] },
       none) := by
  unfold completeJobWithResult withTransaction insertResultStmt markCompletedStmt
  simp [runTx, hfresh, hjob]

/-- The value returned by `updateJobStatus` on a job that exists. -/
theorem updateJobStatus_snd_ok (st : Store) (now : Nat) (jobId : String)
    (status : JobStatus) (msg : Option String) (j : Job)
    (hj : lookupJob st jobId = some j) :
    (updateJobStatus st now jobId status msg).2 =
      .ok (applyStatusUpdate now status msg j) := by
  rw [updateJobStatus_ok st now jobId status msg j hj]

/-- The catch block on an existing job: record the message, rethrow it. -/
theorem failJob_ok (st : Store) (now : Nat) (jobId msg : String) (b : Bool)
    (j : Job) (hj : lookupJob st jobId = some j) :
    failJob st now jobId msg b =
      ⟨(updateJobStatus st now jobId .failed (some msg)).1, some msg, b⟩ := by
  simp only [failJob]
  rw [updateJobStatus_snd_ok st now jobId .failed (some msg) j hj]

/-- A fresh result id stays fresh across a jobs UPDATE. -/
theorem fresh_after_update (st : Store) (now : Nat) (jobId : String)
    (status : JobStatus) (msg : Option String) (rid : String)
    (hfresh : (st.results.any fun x => x.id == rid) = false) :
    ((updateJobStatus st now jobId status msg).1.results.any
      fun x => x.id == rid) = false := by
  rw [updateJobStatus_results]
  exact hfresh

/-! Claim C1. -/

/-- Claim C1 (counterexample): the invariant `attempts <= maxAttempts`
does not hold at every observed point of a job's lifetime: after four
transitions of job `j1` into `processing` (as redeliveries of its queue
entry cause), the store is reachable and its only job shows
`attempts = 4 > maxAttempts = 3`, because `updateJobStatus` increments
`attempts` unconditionally on every transition into `processing`. -/
theorem C1_counterexample :
    Reachable storeFourDeliveries ∧
    (storeFourDeliveries.jobs.any fun j => j.maxAttempts < j.attempts) = true := by
  constructor
  · exact .update _ 4 "j1" .processing none (.update _ 3 "j1" .processing none
      (.update _ 2 "j1" .processing none (.update _ 1 "j1" .processing none
        (.create _ "j1" 0 sampleInput .init))))
  · decide

/-- Claim C1 (amended): every `updateJobStatus` transition into
`processing` increments the job's `attempts` by exactly one, with no
idempotence guard and no cap — `maxAttempts` is unchanged and nothing
stops `attempts` from passing it, so `attempts <= maxAttempts` holds only
while the number of processing transitions stays within `maxAttempts`. -/
theorem C1_attempts_unbounded (st : Store) (now : Nat) (jobId : String)
    (msg : Option String) (j : Job)
    (hj : lookupJob st jobId = some j) :
    lookupJob (updateJobStatus st now jobId .processing msg).1 jobId =
      some (applyStatusUpdate now .processing msg j) ∧
    (applyStatusUpdate now .processing msg j).attempts = j.attempts + 1 ∧
    (applyStatusUpdate now .processing msg j).maxAttempts = j.maxAttempts :=
  ⟨lookupJob_updateJobStatus st now jobId .processing msg j hj,
   applyStatusUpdate_processing_attempts now msg j,
   applyStatusUpdate_maxAttempts now .processing msg j⟩

/-- Witness for `C1_attempts_unbounded` at the singleton store. -/
theorem C1_attempts_unbounded_witness :
    lookupJob storeW "jw" = some jobW ∧
    (lookupJob (updateJobStatus storeW 1 "jw" .processing none).1 "jw" =
       some (applyStatusUpdate 1 .processing none jobW) ∧
     (applyStatusUpdate 1 .processing none jobW).attempts = jobW.attempts + 1 ∧
     (applyStatusUpdate 1 .processing none jobW).maxAttempts = jobW.maxAttempts) :=
  ⟨by decide, C1_attempts_unbounded storeW 1 "jw" none jobW (by decide)⟩

/-! Claim C2. -/

/-- Claim C2 (counterexample): "completed iff exactly one ScanResult" is
violated in a reachable store: completing job `j1` twice (one completion
per duplicate delivery) leaves it `completed` with two ScanResult rows —
the second INSERT is neither rejected nor an overwrite, since the schema
has no UNIQUE constraint on `scan_results.job_id`. -/
theorem C2_counterexample :
    Reachable storeDoubleCompleted ∧
    storeDoubleCompleted.jobs.map Job.status = [JobStatus.completed] ∧
    (resultsFor storeDoubleCompleted "j1").length = 2 := by
  refine ⟨?_, by decide, by decide⟩
  exact .complete _ "r2" 2 "j1" _ (.complete _ "r1" 1 "j1" _
    (.create _ "j1" 0 sampleInput .init))

/-- Claim C2 (amended): each successful `completeJobWithResult` marks the
job `completed` (with `completedAt` set) and appends exactly one further
ScanResult row for it; the biconditional of the claim is not enforced —
every additional successful completion appends another row, and
`updateJobStatus` can mark a job `completed` with no row at all. -/
theorem C2_completion_effect (st : Store) (rid : String) (now : Nat)
    (jobId : String) (r : CompleteResultData)
    (hfresh : (st.results.any fun x => x.id == rid) = false)
    (hjob : (st.jobs.any fun j => j.id == jobId) = true) :
    (resultsFor (completeJobWithResult st rid now jobId r).1 jobId).length =
      (resultsFor st jobId).length + 1 ∧
    ∀ j ∈ (completeJobWithResult st rid now jobId r).1.jobs, j.id = jobId →
      j.status = .completed ∧ j.completedAt = some now := by
  rw [completeJobWithResult_success st rid now jobId r hfresh hjob]
  constructor
  · unfold resultsFor
    rw [filter_append_single _ _ _ (by simp [completionRow])]
    simp
  · intro j hmem hid
    rcases List.mem_map.mp hmem with ⟨k, hk, hkj⟩
    by_cases hkid : (k.id == jobId) = true
    · rw [if_pos hkid] at hkj
      subst hkj
      exact ⟨rfl, rfl⟩
    · rw [if_neg hkid] at hkj
      subst hkj
      exact absurd (beq_iff_eq.mpr hid) hkid

/-- Witness for `C2_completion_effect` at the singleton store. -/
theorem C2_completion_effect_witness :
    (resultsFor (completeJobWithResult storeW "r1" 1 "jw"
        { result := .clean, isInfected := false, threatName := none,
          scanDurationMs := 5 }).1 "jw").length =
      (resultsFor storeW "jw").length + 1 :=
  (C2_completion_effect storeW "r1" 1 "jw"
    { result := .clean, isInfected := false, threatName := none,
      scanDurationMs := 5 } (by decide) (by decide)).1

/-! Claim C3. -/

/-- Claim C3 (counterexample): executing `processScanJob` twice for the
same queue entry is not the same as executing it once.  With job `j1` and
a clean scan, the first delivery leaves one ScanResult and `attempts = 1`;
the duplicate delivery of the same entry leaves two ScanResult rows and
`attempts = 2`: both increments and both inserts happen again. -/
theorem C3_counterexample :
    deliveryOne.thrown = none ∧
    (resultsFor deliveryOne.store "j1").length = 1 ∧
    deliveryOne.store.jobs.map Job.attempts = [1] ∧
    deliveryTwo.thrown = none ∧
    (resultsFor deliveryTwo.store "j1").length = 2 ∧
    deliveryTwo.store.jobs.map Job.attempts = [2] := by
  decide

/-- Claim C3 (amended): the worker's processing path is not idempotent:
every successful `processScanJob` run — a duplicate delivery of the same
entry included — increments the job's `attempts` by one more, inserts one
more ScanResult row for it, and acknowledges the entry. -/
theorem C3_each_delivery_adds (env : WorkerEnv) (st : Store) (now : Nat)
    (rid : String) (p : ScanJobPayload) (j : Job) (res : ClamScanResult)
    (hj : lookupJob st p.jobId = some j)
    (hfile : env.fileOnDisk = true)
    (hinit : env.initFails = false)
    (hscan : env.scan = .ok res)
    (hfresh : (st.results.any fun x => x.id == rid) = false) :
    (processScanJob env st now rid p).thrown = none ∧
    (resultsFor (processScanJob env st now rid p).store p.jobId).length =
      (resultsFor st p.jobId).length + 1 ∧
    ∃ j', lookupJob (processScanJob env st now rid p).store p.jobId = some j' ∧
      j'.attempts = j.attempts + 1 ∧ j'.status = .completed := by
  have hl1 := lookupJob_updateJobStatus st now p.jobId .processing none j hj
  have hjob1 := any_of_lookup _ _ _ hl1
  have hfresh1 := fresh_after_update st now p.jobId .processing none rid hfresh
  have hc := completeJobWithResult_success
    (updateJobStatus st now p.jobId .processing none).1 rid now p.jobId
    { result := classifyResult res, isInfected := res.isInfected,
      threatName := res.viruses.head?, scanDurationMs := res.scanDurationMs }
    hfresh1 hjob1
  have key : processScanJob env st now rid p =
      ⟨{ jobs := (updateJobStatus st now p.jobId .processing none).1.jobs.map
            (fun k => if k.id == p.jobId then
              { k with status := .completed, completedAt := some now,
                       updatedAt := now }
            else k),
         results := (updateJobStatus st now p.jobId .processing none).1.results ++
           [completionRow rid p.jobId now
             { result := classifyResult res, isInfected := res.isInfected,
               threatName := res.viruses.head?,
               scanDurationMs := res.scanDurationMs }] },
        none, true⟩ := by
    simp only [processScanJob]
    rw [updateJobStatus_snd_ok st now p.jobId .processing none j hj]
    simp only [hfile, hinit, hscan, Bool.not_true]
    rw [if_neg (by simp)]
    rw [hc]
    rfl
  refine ⟨by rw [key], ?_, ?_⟩
  · rw [key]
    unfold resultsFor
    rw [filter_append_single _ _ _ (by simp [completionRow])]
    rw [updateJobStatus_results]
    simp [resultsFor]
  · refine ⟨{ applyStatusUpdate now .processing none j with
        status := .completed, completedAt := some now, updatedAt := now },
      ?_, ?_, rfl⟩
    · rw [key]
      unfold lookupJob
      exact find?_map_modify _ _
        (fun k => { k with status := .completed, completedAt := some now,
                           updatedAt := now })
        _ (fun k => rfl) hl1
    · exact applyStatusUpdate_processing_attempts now none j

/-- Witness for `C3_each_delivery_adds` at the singleton store. -/
theorem C3_each_delivery_adds_witness :
    (processScanJob envClean storeW 1 "r1" payloadW).thrown = none ∧
    (resultsFor (processScanJob envClean storeW 1 "r1" payloadW).store "jw").length =
      (resultsFor storeW "jw").length + 1 ∧
    ∃ j', lookupJob (processScanJob envClean storeW 1 "r1" payloadW).store "jw" =
        some j' ∧ j'.attempts = jobW.attempts + 1 ∧ j'.status = .completed :=
  C3_each_delivery_adds envClean storeW 1 "r1" payloadW jobW cleanScan
    (by decide) rfl rfl rfl (by decide)

/-! Claim C4. -/

/-- Claim C4: `completeJobWithResult` is all-or-nothing.  Because the
INSERT of the ScanResult and the UPDATE to `completed` run inside one
`withTransaction`, either the call commits — the row is appended and the
job's status becomes `completed` with `completedAt` set, in the same
returned state — or some statement fails and the returned state is exactly
the initial one; no state with one effect but not the other escapes. -/
theorem C4_complete_all_or_nothing (st : Store) (rid : String) (now : Nat)
    (jobId : String) (r : CompleteResultData) :
    completeJobWithResult st rid now jobId r =
      ({ jobs := st.jobs.map (fun j =>
            if j.id == jobId then
              { j with status := .completed, completedAt := some now,
                       updatedAt := now }
            else j),
         results := st.results ++ [completionRow rid jobId now r] }, none) ∨
    ∃ e, completeJobWithResult st rid now jobId r = (st, some e) := by
  by_cases h1 : (st.results.any fun x => x.id == rid) = true
  · right
    refine ⟨.databaseError "Database query failed", ?_⟩
    unfold completeJobWithResult withTransaction insertResultStmt markCompletedStmt
    simp [runTx, h1]
  · by_cases h2 : (st.jobs.any fun j => j.id == jobId) = true
    · left
      exact completeJobWithResult_success st rid now jobId r
        (by simpa using h1) h2
    · right
      refine ⟨.databaseError "Database query failed", ?_⟩
      unfold completeJobWithResult withTransaction insertResultStmt markCompletedStmt
      simp [runTx, (by simpa using h1 : (st.results.any fun x => x.id == rid) = false),
        (by simpa using h2 : (st.jobs.any fun j => j.id == jobId) = false)]

/-! Claim C5. -/

/-- Claim C5: of two jobs enqueued at the same time and simultaneously
eligible, the one with the numerically higher priority is delivered first:
with A at priority 5 and B at priority 1 added through `enqueueScanJob`,
`nextDelivered` hands A out first, whichever of the two was added first. -/
theorem C5_priority_first (idA idB fpA fpB : String) :
    ((nextDelivered (enqueueScanJob (enqueueScanJob [] false idA fpA
        (some 5) none).1 false idB fpB (some 1) none).1).map
      QueueEntry.entryId = some idA) ∧
    ((nextDelivered (enqueueScanJob (enqueueScanJob [] false idB fpB
        (some 1) none).1 false idA fpA (some 5) none).1).map
      QueueEntry.entryId = some idA) := by
  exact ⟨rfl, rfl⟩

/-! Claim C6. -/

/-- Claim C6 (counterexample): a job failing with attempts remaining still
gets `completedAt`: in the reachable store where `j1` failed on its first
of three attempts, the row shows status `failed`, `attempts = 1 <
maxAttempts = 3`, `errorMessage` recorded — and `completedAt = some 2`,
because `updateJobStatus` sets `completed_at` on every transition into
`failed`, exhausted or not. -/
theorem C6_counterexample :
    Reachable storeFailedEarly ∧
    storeFailedEarly.jobs.map (fun j =>
        (j.status, j.attempts, j.maxAttempts, j.completedAt, j.errorMessage)) =
      [(JobStatus.failed, 1, 3, some 2, some "scan failed")] := by
  refine ⟨?_, by decide⟩
  exact .update _ 2 "j1" .failed (some "scan failed")
    (.update _ 1 "j1" .processing none (.create _ "j1" 0 sampleInput .init))

/-- Claim C6 (amended): on a transition to `failed`, `errorMessage` is
recorded and `completedAt` is always set to the current time, whether or
not attempts remain; eligibility for redelivery — the `getRetryableJobs`
criterion, status `failed` with `attempts < max_attempts` — is decided by
the attempt counters alone and is unaffected by `completedAt`. -/
theorem C6_failed_always_sets_completedAt (st : Store) (now : Nat)
    (jobId : String) (m : String) (j : Job)
    (hj : lookupJob st jobId = some j) :
    lookupJob (updateJobStatus st now jobId .failed (some m)).1 jobId =
      some { j with
              status := .failed
              updatedAt := now
              completedAt := some now
              errorMessage := some m } ∧
    retryEligible { j with
                    status := .failed
                    updatedAt := now
                    completedAt := some now
                    errorMessage := some m } =
      decide (j.attempts < j.maxAttempts) := by
  constructor
  · rw [lookupJob_updateJobStatus st now jobId .failed (some m) j hj,
      applyStatusUpdate_failed]
  · simp [retryEligible]

/-- Witness for `C6_failed_always_sets_completedAt` at the singleton
store. -/
theorem C6_failed_always_sets_completedAt_witness :
    lookupJob (updateJobStatus storeW 7 "jw" .failed (some "boom")).1 "jw" =
      some { jobW with
              status := .failed
              updatedAt := 7
              completedAt := some 7
              errorMessage := some "boom" } ∧
    retryEligible { jobW with
                    status := .failed
                    updatedAt := 7
                    completedAt := some 7
                    errorMessage := some "boom" } =
      decide (jobW.attempts < jobW.maxAttempts) :=
  C6_failed_always_sets_completedAt storeW 7 "jw" "boom" jobW (by decide)

/-! Claim C7. -/

/-- Claim C7 (counterexample): `createJob` does not fail with
`ValidationError` on a missing required field: with `originalFilename`
absent the INSERT violates NOT NULL and the db client wrapper throws
`DatabaseError("Database query failed")`, which is not a ValidationError. -/
theorem C7_counterexample :
    (createJob Store.empty "j1" 0 inputMissingName).2 =
      .error (.databaseError "Database query failed") ∧
    (match (createJob Store.empty "j1" 0 inputMissingName).2 with
     | .error e => e.isValidationError
     | .ok _ => false) = false := by
  exact ⟨rfl, rfl⟩

/-- Claim C7 (amended): `createJob` performs no validation of its own.
When a required field is missing, the INSERT fails and surfaces as
`DatabaseError("Database query failed")` — not `ValidationError`; when all
required fields are present (and the generated id is fresh) it returns a
job carrying the fresh id with status `pending`. -/
theorem C7_createJob_behaviour (st : Store) (newId : String) (now : Nat)
    (input : CreateJobInput)
    (hfresh : (st.jobs.any fun j => j.id == newId) = false) :
    ((input.originalFilename.isSome && input.storedFilename.isSome &&
        input.filePath.isSome && input.fileSize.isSome) = false →
      (createJob st newId now input).2 =
        .error (.databaseError "Database query failed")) ∧
    ((input.originalFilename.isSome && input.storedFilename.isSome &&
        input.filePath.isSome && input.fileSize.isSome) = true →
      ∃ job, (createJob st newId now input).2 = .ok job ∧
        job.id = newId ∧ job.status = .pending) := by
  obtain ⟨ofn, sfn, fp, fs, mt, ck, pr⟩ := input
  constructor
  · intro hmiss
    cases ofn <;> cases sfn <;> cases fp <;> cases fs <;>
      first
        | rfl
        | simp at hmiss
  · intro hall
    simp only [Bool.and_eq_true] at hall
    obtain ⟨⟨⟨h1, h2⟩, h3⟩, h4⟩ := hall
    rcases Option.isSome_iff_exists.mp h1 with ⟨a1, e1⟩
    rcases Option.isSome_iff_exists.mp h2 with ⟨a2, e2⟩
    rcases Option.isSome_iff_exists.mp h3 with ⟨a3, e3⟩
    rcases Option.isSome_iff_exists.mp h4 with ⟨a4, e4⟩
    subst e1
    subst e2
    subst e3
    subst e4
    unfold createJob
    rw [hfresh]
    exact ⟨_, rfl, rfl, rfl⟩

/-- Witness for `C7_createJob_behaviour` on an input with every required
field present. -/
theorem C7_createJob_behaviour_witness :
    ∃ job, (createJob Store.empty "jw" 0 sampleInput).2 = .ok job ∧
      job.id = "jw" ∧ job.status = .pending :=
  (C7_createJob_behaviour Store.empty "jw" 0 sampleInput (by decide)).2 (by decide)

/-- The element appended to a list none of whose elements satisfies the
predicate is what `find?` returns. -/
theorem find?_append_last {α} (p : α → Bool) (l : List α) (a : α)
    (hl : l.any p = false) (ha : p a = true) :
    (l ++ [a]).find? p = some a := by
  induction l with
  | nil => simpa using List.find?_cons_of_pos (p := p) [] ha
  | cons b l ih =>
    rw [List.any_cons] at hl
    have hb : p b = false := by
      cases hpb : p b
      · rfl
      · rw [hpb] at hl
        simp at hl
    have hl' : l.any p = false := by
      cases hpl : l.any p
      · rfl
      · rw [hpl] at hl
        simp at hl
    rw [List.cons_append, List.find?_cons_of_neg (p := p) _ (by simp [hb])]
    exact ih hl'

/-! Claim C8. -/

/-- Claim C8 (counterexample): with an empty system and the queue add
failing, the upload handler deletes the stored file and rethrows the
`QueueError` — but the freshly created job `j1` stays in the store with
status `pending` while the queue holds no entry for it: the job record is
neither rolled back nor marked failed, contradicting the claim. -/
theorem C8_counterexample :
    submitEnqueueFailed.2 = .error (.queueError "Failed to add job to queue") ∧
    submitEnqueueFailed.1.files = [] ∧
    submitEnqueueFailed.1.queue = [] ∧
    submitEnqueueFailed.1.store.jobs.map (fun j => (j.id, j.status)) =
      [("j1", JobStatus.pending)] := by
  exact ⟨rfl, rfl, rfl, rfl⟩

/-- Claim C8 (amended): when job creation succeeds and enqueueing fails,
the handler's catch block deletes the stored file (the storage contents
return to what they were) and rethrows the `QueueError`, but the created
job row remains in the store with status `pending` and no queue entry is
added — the job record is left orphaned. -/
theorem C8_enqueue_failure_leaves_job (sys : SysState) (newJobId : String)
    (now : Nat) (originalname mimetype : String) (sf : StoredFileInfo)
    (priority : Int)
    (hfresh : (sys.store.jobs.any fun j => j.id == newJobId) = false)
    (hfile : sf.storedFilename ∉ sys.files) :
    (submitScan true sys newJobId now originalname mimetype sf priority).2 =
      .error (.queueError "Failed to add job to queue") ∧
    (submitScan true sys newJobId now originalname mimetype sf priority).1.files =
      sys.files ∧
    (submitScan true sys newJobId now originalname mimetype sf priority).1.queue =
      sys.queue ∧
    ∃ j, lookupJob (submitScan true sys newJobId now originalname mimetype sf
        priority).1.store newJobId = some j ∧ j.status = .pending := by
  have key : submitScan true sys newJobId now originalname mimetype sf priority =
      ({ store :=
           { jobs := sys.store.jobs ++
               [{ id := newJobId
                  originalFilename := originalname
                  storedFilename := sf.storedFilename
                  filePath := sf.filePath
                  fileSize := sf.fileSize
                  mimeType := some mimetype
                  checksum := some sf.checksum
                  status := .pending
                  priority := min (max priority 0) 10
                  attempts := 0
                  maxAttempts := 3
                  errorMessage := none
                  createdAt := now
                  updatedAt := now
                  startedAt := none
                  completedAt := none }]
             results := sys.store.results }
         files := (sys.files ++ [sf.storedFilename]).erase sf.storedFilename
         queue := sys.queue },
       .error (.queueError "Failed to add job to queue")) := by
    simp only [submitScan, createJob]
    rw [hfresh]
    rfl
  refine ⟨by rw [key], ?_, by rw [key], ?_⟩
  · rw [key]
    show (sys.files ++ [sf.storedFilename]).erase sf.storedFilename = sys.files
    rw [List.erase_append_right _ hfile, List.erase_cons_head, List.append_nil]
  · refine ⟨{ id := newJobId
              originalFilename := originalname
              storedFilename := sf.storedFilename
              filePath := sf.filePath
              fileSize := sf.fileSize
              mimeType := some mimetype
              checksum := some sf.checksum
              status := .pending
              priority := min (max priority 0) 10
              attempts := 0
              maxAttempts := 3
              errorMessage := none
              createdAt := now
              updatedAt := now
              startedAt := none
              completedAt := none }, ?_, rfl⟩
    rw [key]
    unfold lookupJob
    exact find?_append_last _ _ _ hfresh (by simp)

/-- Witness for `C8_enqueue_failure_leaves_job` on the empty system. -/
theorem C8_enqueue_failure_leaves_job_witness :
    (submitScan true { store := Store.empty, files := [], queue := [] }
        "j1" 0 "report.pdf" "text/plain" storedFile1 5).2 =
      .error (.queueError "Failed to add job to queue") ∧
    (submitScan true { store := Store.empty, files := [], queue := [] }
        "j1" 0 "report.pdf" "text/plain" storedFile1 5).1.files = [] ∧
    (submitScan true { store := Store.empty, files := [], queue := [] }
        "j1" 0 "report.pdf" "text/plain" storedFile1 5).1.queue = [] ∧
    ∃ j, lookupJob (submitScan true
        { store := Store.empty, files := [], queue := [] }
        "j1" 0 "report.pdf" "text/plain" storedFile1 5).1.store
        "j1" = some j ∧ j.status = .pending :=
  C8_enqueue_failure_leaves_job { store := Store.empty, files := [], queue := [] }
    "j1" 0 "report.pdf" "text/plain" storedFile1 5 (by decide) (by decide)

/-! Claim C9. -/

/-- Claim C9: when the stored file no longer exists at pickup, the worker
fails the job before invoking the detector: the run does not call the
scanner, writes no ScanResult row, rethrows `File not found: <path>`, and
leaves the job `failed` with that message recorded as its
`errorMessage`. -/
theorem C9_missing_file_fails_before_scan (env : WorkerEnv) (st : Store)
    (now : Nat) (rid : String) (p : ScanJobPayload) (j : Job)
    (hj : lookupJob st p.jobId = some j)
    (hfile : env.fileOnDisk = false) :
    (processScanJob env st now rid p).scanInvoked = false ∧
    (processScanJob env st now rid p).store.results = st.results ∧
    (processScanJob env st now rid p).thrown =
      some ("File not found: " ++ p.filePath) ∧
    ∃ j', lookupJob (processScanJob env st now rid p).store p.jobId = some j' ∧
      j'.status = .failed ∧
      j'.errorMessage = some ("File not found: " ++ p.filePath) := by
  have hl1 := lookupJob_updateJobStatus st now p.jobId .processing none j hj
  have key : processScanJob env st now rid p =
      ⟨(updateJobStatus (updateJobStatus st now p.jobId .processing none).1 now
          p.jobId .failed (some ("File not found: " ++ p.filePath))).1,
        some ("File not found: " ++ p.filePath), false⟩ := by
    simp only [processScanJob]
    rw [updateJobStatus_snd_ok st now p.jobId .processing none j hj]
    simp only [hfile, Bool.not_false]
    simp only [if_true]
    exact failJob_ok _ now p.jobId _ false _ hl1
  refine ⟨by rw [key], ?_, by rw [key], ?_⟩
  · rw [key, updateJobStatus_results, updateJobStatus_results]
  · refine ⟨applyStatusUpdate now .failed (some ("File not found: " ++ p.filePath))
        (applyStatusUpdate now .processing none j), ?_, ?_, ?_⟩
    · rw [key]
      exact lookupJob_updateJobStatus _ now p.jobId .failed _ _ hl1
    · rw [applyStatusUpdate_failed]
    · rw [applyStatusUpdate_failed]

/-- Witness for `C9_missing_file_fails_before_scan` at the singleton
store. -/
theorem C9_missing_file_fails_before_scan_witness :
    (processScanJob envMissingFile storeW 1 "r1" payloadW).scanInvoked = false ∧
    (processScanJob envMissingFile storeW 1 "r1" payloadW).store.results =
      storeW.results ∧
    (processScanJob envMissingFile storeW 1 "r1" payloadW).thrown =
      some ("File not found: " ++ payloadW.filePath) ∧
    ∃ j', lookupJob (processScanJob envMissingFile storeW 1 "r1"
        payloadW).store "jw" = some j' ∧ j'.status = .failed ∧
      j'.errorMessage = some ("File not found: " ++ payloadW.filePath) :=
  C9_missing_file_fails_before_scan envMissingFile storeW 1 "r1" payloadW jobW
    (by decide) rfl

/-! Claim C10: lemmas about the path model. -/

/-- Splitting on the separator yields separator-free segments. -/
theorem splitSlash_no_slash (cs : List Char) :
    ∀ s ∈ splitSlash cs, '/' ∉ s := by
  induction cs with
  | nil =>
    intro s hs
    simp only [splitSlash, List.mem_singleton] at hs
    subst hs
    simp
  | cons c cs ih =>
    intro s hs
    by_cases hc : c = '/'
    · rw [splitSlash, if_pos hc] at hs
      rcases List.mem_cons.mp hs with hs | hs
      · subst hs
        simp
      · exact ih s hs
    · rw [splitSlash, if_neg hc] at hs
      cases hsplit : splitSlash cs with
      | nil =>
        rw [hsplit] at hs
        simp only [List.mem_singleton] at hs
        subst hs
        simp only [List.mem_singleton]
        exact fun hcontra => hc hcontra.symm
      | cons s0 ss =>
        rw [hsplit] at hs
        rcases List.mem_cons.mp hs with hs | hs
        · subst hs
          intro hmem
          rcases List.mem_cons.mp hmem with hmem | hmem
          · exact hc hmem.symm
          · exact ih s0 (hsplit ▸ List.mem_cons_self s0 ss) hmem
        · exact ih s (hsplit ▸ List.mem_cons_of_mem s0 hs)

/-- Normalization keeps only real path components: every segment the fold
leaves is valid. -/
theorem foldl_stepSeg_valid (ss : List (List Char)) :
    ∀ acc, (∀ s ∈ ss, '/' ∉ s) → (∀ s ∈ acc, validSeg s) →
      ∀ s ∈ ss.foldl stepSeg acc, validSeg s := by
  induction ss with
  | nil =>
    intro acc _ hacc s hs
    exact hacc s hs
  | cons b ss ih =>
    intro acc hss hacc s hs
    refine ih (stepSeg acc b) (fun t ht => hss t (List.mem_cons_of_mem b ht))
      ?_ s hs
    intro t ht
    unfold stepSeg at ht
    by_cases h1 : b = [] ∨ b = ['.']
    · rw [if_pos h1] at ht
      exact hacc t ht
    · rw [if_neg h1] at ht
      by_cases h2 : b = ['.', '.']
      · rw [if_pos h2] at ht
        exact hacc t (List.dropLast_subset _ ht)
      · rw [if_neg h2] at ht
        rcases List.mem_append.mp ht with h | h
        · exact hacc t h
        · rw [List.mem_singleton] at h
          subst h
          exact ⟨fun hn => h1 (Or.inl hn), fun hn => h1 (Or.inr hn), h2,
            hss t (List.mem_cons_self t ss)⟩

/-- The segments of a resolved path are all valid. -/
theorem resolveSegs_valid (cs : List Char) :
    ∀ s ∈ resolveSegs cs, validSeg s :=
  foldl_stepSeg_valid (splitSlash cs) [] (splitSlash_no_slash cs) (by simp)

/-- Unfolding equation of `resolveChars`. -/
theorem resolveChars_eq (cs : List Char) :
    resolveChars cs = '/' :: joinSegs (resolveSegs cs) := rfl

/-- The model of `String.prototype.startsWith` decides list prefixing. -/
theorem isPrefixChars_iff (a b : List Char) :
    isPrefixChars a b = true ↔ a <+: b := by
  induction a generalizing b with
  | nil => simp [isPrefixChars]
  | cons x a ih =>
    cases b with
    | nil => simp [isPrefixChars]
    | cons y b => simp [isPrefixChars, ih]

/-- Joining a non-empty tail inserts a separator after the head. -/
theorem joinSegs_cons (s : List Char) (ss : List (List Char)) (h : ss ≠ []) :
    joinSegs (s :: ss) = s ++ '/' :: joinSegs ss := by
  cases ss with
  | nil => exact absurd rfl h
  | cons t ts => rfl

/-- Unique parsing of a separator-terminated component: two paths that
agree up to a separator agree on the leading separator-free component. -/
theorem prefix_seg_split : ∀ (a b x y : List Char),
    '/' ∉ a → '/' ∉ b → a ++ '/' :: x <+: b ++ '/' :: y →
    a = b ∧ x <+: y := by
  intro a
  induction a with
  | nil =>
    intro b x y _ hb h
    cases b with
    | nil =>
      refine ⟨rfl, ?_⟩
      simpa using h
    | cons c b' =>
      exfalso
      rcases h with ⟨t, ht⟩
      simp only [List.nil_append, List.cons_append] at ht
      injection ht with h1 h2
      subst h1
      exact hb (List.mem_cons_self _ b')
  | cons d a' ih =>
    intro b x y ha hb h
    cases b with
    | nil =>
      exfalso
      rcases h with ⟨t, ht⟩
      simp only [List.cons_append, List.nil_append] at ht
      injection ht with h1 h2
      exact ha (h1 ▸ List.mem_cons_self d a')
    | cons c b' =>
      rcases h with ⟨t, ht⟩
      simp only [List.cons_append] at ht
      injection ht with h1 h2
      have hrec := ih b' x y (fun hm => ha (List.mem_cons_of_mem d hm))
        (fun hm => hb (List.mem_cons_of_mem c hm)) ⟨t, h2⟩
      exact ⟨by rw [h1, hrec.1], hrec.2⟩

/-- If a joined valid-segment path extended by a separator is a prefix of
another joined valid-segment path, the latter extends the former by a
separator and at least one further component. -/
theorem prefix_joinSegs : ∀ (us qs : List (List Char)),
    (∀ s ∈ us, validSeg s) → (∀ s ∈ qs, validSeg s) →
    joinSegs us ++ ['/'] <+: joinSegs qs →
    ∃ ss, ss ≠ [] ∧ (∀ s ∈ ss, validSeg s) ∧
      joinSegs qs = joinSegs us ++ '/' :: joinSegs ss := by
  intro us
  induction us with
  | nil =>
    intro qs _ hqs h
    exfalso
    simp only [joinSegs, List.nil_append] at h
    cases qs with
    | nil => simp [joinSegs] at h
    | cons q0 qs' =>
      have hq0 := hqs q0 (List.mem_cons_self q0 qs')
      obtain ⟨r, hr⟩ : ∃ r, joinSegs (q0 :: qs') = q0 ++ r := by
        cases qs' with
        | nil => exact ⟨[], by simp [joinSegs]⟩
        | cons q1 qs'' => exact ⟨'/' :: joinSegs (q1 :: qs''), rfl⟩
      rw [hr] at h
      cases hq00 : q0 with
      | nil => exact hq0.1 hq00
      | cons e q0' =>
        rw [hq00] at h
        rcases h with ⟨t, ht⟩
        simp only [List.cons_append] at ht
        injection ht with h1 h2
        refine hq0.2.2.2 ?_
        rw [hq00, ← h1]
        exact List.mem_cons_self _ q0'
  | cons u0 us' ih =>
    intro qs hus hqs h
    have hu0 := hus u0 (List.mem_cons_self u0 us')
    cases qs with
    | nil =>
      exfalso
      have hnil : joinSegs (u0 :: us') ++ ['/'] = [] := List.prefix_nil.mp h
      simp at hnil
    | cons q0 qs' =>
      have hq0 := hqs q0 (List.mem_cons_self q0 qs')
      by_cases hus' : us' = []
      · subst hus'
        cases qs' with
        | nil =>
          exfalso
          have hmem : '/' ∈ joinSegs [u0] ++ ['/'] := by simp
          have := h.subset hmem
          simp only [joinSegs] at this
          exact hq0.2.2.2 this
        | cons q1 qs'' =>
          have hP := prefix_seg_split u0 q0 [] (joinSegs (q1 :: qs''))
            hu0.2.2.2 hq0.2.2.2 (by simpa [joinSegs] using h)
          refine ⟨q1 :: qs'', by simp, fun s hs => hqs s (List.mem_cons_of_mem q0 hs), ?_⟩
          show q0 ++ '/' :: joinSegs (q1 :: qs'') =
            joinSegs [u0] ++ '/' :: joinSegs (q1 :: qs'')
          rw [hP.1]
          rfl
      · cases qs' with
        | nil =>
          exfalso
          have hmem : '/' ∈ joinSegs (u0 :: us') ++ ['/'] := by simp
          have := h.subset hmem
          simp only [joinSegs] at this
          exact hq0.2.2.2 this
        | cons q1 qs'' =>
          have hL : joinSegs (u0 :: us') ++ ['/'] =
              u0 ++ '/' :: (joinSegs us' ++ ['/']) := by
            rw [joinSegs_cons u0 us' hus']
            simp
          rw [hL] at h
          have hP := prefix_seg_split u0 q0 (joinSegs us' ++ ['/'])
            (joinSegs (q1 :: qs'')) hu0.2.2.2 hq0.2.2.2 h
          obtain ⟨ss, hne, hv, hjoin⟩ := ih (q1 :: qs'')
            (fun s hs => hus s (List.mem_cons_of_mem u0 hs))
            (fun s hs => hqs s (List.mem_cons_of_mem q0 hs)) hP.2
          refine ⟨ss, hne, hv, ?_⟩
          show q0 ++ '/' :: joinSegs (q1 :: qs'') =
            joinSegs (u0 :: us') ++ '/' :: joinSegs ss
          rw [hjoin, joinSegs_cons u0 us' hus', hP.1]
          simp

/-- Claim C10: every call of `getFilePath` either throws `StorageError` or
returns a path strictly inside the upload directory.  A returned path is
the resolved upload directory extended by one separator and at least one
real path component — with no `.` or `..` segments remaining — so no
input, `..` and separators included, yields a path outside the upload
directory. -/
theorem C10_getFilePath_never_escapes (cfg s : List Char) :
    getFilePathChars cfg s =
      .error (.storageError
        (String.mk ("Invalid file path detected: ".toList ++ s))) ∨
    ∃ p, getFilePathChars cfg s = .ok p ∧
      strictlyInside (resolveChars (resolveChars cfg)) p := by
  by_cases hg : isPrefixChars (resolveChars (resolveChars cfg) ++ ['/'])
      (resolveChars (resolveChars cfg ++ '/' :: basenameChars s)) = true
  · right
    refine ⟨resolveChars (resolveChars cfg ++ '/' :: basenameChars s), ?_, ?_⟩
    · simp only [getFilePathChars]
      rw [if_pos hg]
    · have hpre := (isPrefixChars_iff _ _).mp hg
      have hq := resolveSegs_valid (resolveChars cfg ++ '/' :: basenameChars s)
      have hu := resolveSegs_valid (resolveChars cfg)
      rw [resolveChars_eq (resolveChars cfg),
        resolveChars_eq (resolveChars cfg ++ '/' :: basenameChars s),
        List.cons_append, List.cons_prefix_cons] at hpre
      obtain ⟨ss, hne, hv, hjoin⟩ := prefix_joinSegs _ _ hu hq hpre.2
      refine ⟨ss, hne, hv, ?_⟩
      show resolveChars (resolveChars cfg ++ '/' :: basenameChars s) =
        resolveChars (resolveChars cfg) ++ '/' :: joinSegs ss
      rw [resolveChars_eq (resolveChars cfg ++ '/' :: basenameChars s),
        resolveChars_eq (resolveChars cfg), hjoin]
      rfl
  · left
    simp only [getFilePathChars]
    rw [if_neg hg]

end FileGuard
